import Mathlib

/-!
Shallow embedding of the Solana raffle program
(`src/anchor_project/programs/raffle/src/`): the persistent `RaffleState`
record and its borsh codec (`state.rs`), and the instruction handlers
(`create_raffle.rs`, `buy_tickets.rs`, `draw_winner_callback.rs`).

Machine integers are modelled as `Nat`/`Int` with explicit `2 ^ 64` /
`2 ^ 32` bounds where Rust's fixed-width arithmetic matters.  Byte buffers
are `List Nat` (each entry one byte).  A Solana `Pubkey` (`[u8; 32]`) is a
byte list; well-formedness (`length = 32`) is tracked by predicates.

The repository contains several historical snapshots of the record type
that use different field names (`authority` / `owner` / `raffle_manager`,
`winner` / `winner_index`).  `RaffleState` embeds the struct of `state.rs`
(the codec, `reserve_tickets` and `prize_amount` live there);
`RaffleStateIx` embeds the fields that the instruction files
`create_raffle.rs`, `buy_tickets.rs` and `draw_winner_callback.rs` read
and write.
-/

namespace Raffle

/-- A Solana public key: a 32-byte array, modelled as a list of bytes. -/
abbrev Pubkey := List Nat

/-- Well-formedness of a pubkey: exactly 32 bytes. -/
def Pubkey.wf (p : Pubkey) : Prop := p.length = 32

/-- Little-endian encoding of `n` into `k` bytes, as in Rust's
`to_le_bytes`.  Like an `as` cast, it keeps only `n % 256 ^ k`. -/
def encLE : Nat → Nat → List Nat
  | 0, _ => []
  | k + 1, n => n % 256 :: encLE k (n / 256)

/-- Little-endian decoding of a byte list, as in Rust's `from_le_bytes`. -/
def decLE (l : List Nat) : Nat := l.foldr (fun b acc => b + 256 * acc) 0

theorem encLE_length (k n : Nat) : (encLE k n).length = k := by
  induction k generalizing n with
  | zero => rfl
  | succ k ih => simp [encLE, ih]

theorem decLE_encLE (k n : Nat) : decLE (encLE k n) = n % 256 ^ k := by
  induction k generalizing n with
  | zero => simp [encLE, decLE, Nat.mod_one]
  | succ k ih =>
    have h : decLE (encLE k (n / 256)) = n / 256 % 256 ^ k := ih (n / 256)
    have e1 : n % (256 * 256 ^ k) % 256 = n % 256 :=
      Nat.mod_mod_of_dvd n (dvd_mul_right 256 (256 ^ k))
    have e2 : n % (256 * 256 ^ k) / 256 = n / 256 % 256 ^ k :=
      Nat.mod_mul_right_div_self n 256 (256 ^ k)
    have e3 := Nat.div_add_mod (n % (256 * 256 ^ k)) 256
    rw [e1, e2] at e3
    simp only [encLE, decLE, List.foldr_cons]
    have h2 : (encLE k (n / 256)).foldr (fun b acc => b + 256 * acc) 0
        = decLE (encLE k (n / 256)) := rfl
    rw [h2, h, pow_succ']
    omega

theorem decLE_encLE_of_lt {k n : Nat} (h : n < 256 ^ k) :
    decLE (encLE k n) = n := by
  rw [decLE_encLE, Nat.mod_eq_of_lt h]

/-- Overflow-checked `u64` multiplication (`checked_mul` in Rust). -/
def checked_mul_u64 (a b : Nat) : Option Nat :=
  if a * b < 2 ^ 64 then some (a * b) else none

/-- Overflow-checked `usize` addition (`checked_add` in Rust, 64-bit
target). -/
def checked_add_usize (a b : Nat) : Option Nat :=
  if a + b < 2 ^ 64 then some (a + b) else none

/-- Error type of the program.  Constructors mirror the variants of
`RaffleError` in `errors.rs` plus the variants referenced by the
instruction-file snapshots (`RaffleHasEnded`, `InsufficientTickets`,
`DrawWinnerNotStarted`, `CallbackAlreadyInvoked`,
`CallbackNotInvokedByVRF`). -/
inductive RaffleError where
  | RaffleEndTimeInPast
  | TooManyTickets
  | InsufficientTicketsAvailable
  | RaffleEnded
  | RaffleNotEnded
  | WinnerNotYetDrawn
  | WinnerAlreadyDrawn
  | PrizeAlreadyClaimed
  | RaffleTooLarge
  | RaffleStateAccountTooSmall
  | RaffleStateDataInvalid
  | Unauthorized
  | RandomnessExpired
  | RandomnessNotRequested
  | InvalidRandomnessAccount
  | RandomnessNotResolved
  | RaffleHasEnded
  | InsufficientTickets
  | DrawWinnerNotStarted
  | CallbackAlreadyInvoked
  | CallbackNotInvokedByVRF
  deriving DecidableEq, Repr

/-- Outcome of a transaction handler: success with the new record,
a typed error (the transaction aborts and the stored record is
unchanged), or a Rust panic (`unwrap` on `None`, `%` by zero — the
transaction likewise aborts with no state change, but with no typed
error). -/
inductive TxResult (α : Type) where
  | ok (value : α)
  | err (e : RaffleError)
  | panic
  deriving DecidableEq, Repr

/-- The raffle record as declared in `state.rs`. -/
structure RaffleState where
  authority : Pubkey
  /-- Price per ticket in lamports, `u64`. -/
  ticket_price : Nat
  /-- End time, declared `u64` in `state.rs`. -/
  end_time : Nat
  winner : Option Pubkey
  /-- Capacity, `u32`. -/
  max_tickets : Nat
  claimed : Bool
  entrants : List Pubkey
  deriving DecidableEq, Repr

/-- Embeds `RaffleState::max_size_in_bytes` from `state.rs`. -/
def RaffleState.max_size_in_bytes (s : RaffleState) : Nat :=
  4 + 32 + 8 + 8 + 33 + 4 + 1 + 4 + 32 * s.max_tickets

/-- Embeds `RaffleState::sold_tickets` from `state.rs`. -/
def RaffleState.sold_tickets (s : RaffleState) : Nat := s.entrants.length

/-- Embeds `RaffleState::prize_amount` from `state.rs`: unchecked `u64`
multiplication `ticket_price * entrants.len()`; the returned `Nat` is the
mathematical product, which matches the `u64` value iff it is below
`2 ^ 64`. -/
def RaffleState.prize_amount (s : RaffleState) : Nat :=
  s.ticket_price * s.entrants.length

/-- Embeds `RaffleState::reserve_tickets` from `state.rs`: checked add of
`sold_tickets + num_tickets`, capacity test, and append of
`num_tickets` copies of `holder`.  Returns the Rust `bool` together with
the (possibly unchanged) record. -/
def RaffleState.reserve_tickets (s : RaffleState) (holder : Pubkey)
    (num_tickets : Nat) : Bool × RaffleState :=
  match checked_add_usize s.sold_tickets num_tickets with
  | some new_total =>
    if new_total ≤ s.max_tickets then
      (true, { s with entrants := s.entrants ++ List.replicate num_tickets holder })
    else
      (false, s)
  | none => (false, s)

/-- Borsh encoding of a `bool` (one byte, `0` or `1`). -/
def encBool (b : Bool) : List Nat := [if b then 1 else 0]

/-- Borsh encoding of an `Option<Pubkey>` (tag byte then payload). -/
def encOptionPubkey : Option Pubkey → List Nat
  | none => [0]
  | some p => 1 :: p

/-- Borsh serialization of `RaffleState` (`self.serialize(...)` in
`serialize_to_account`), field by field in declaration order; the
entrants vector is a `u32` length followed by the elements. -/
def borshSer (s : RaffleState) : List Nat :=
  s.authority ++ encLE 8 s.ticket_price ++ encLE 8 s.end_time ++
    encOptionPubkey s.winner ++ encLE 4 s.max_tickets ++ encBool s.claimed ++
    encLE 4 s.entrants.length ++ s.entrants.flatten

/-- Consume exactly `k` bytes from the input, failing if it is shorter. -/
def parseBytes (k : Nat) (l : List Nat) : Option (List Nat × List Nat) :=
  if k ≤ l.length then some (l.take k, l.drop k) else none

/-- Borsh decode of a `k`-byte little-endian unsigned integer. -/
def parseLE (k : Nat) (l : List Nat) : Option (Nat × List Nat) :=
  match parseBytes k l with
  | some (b, rest) => some (decLE b, rest)
  | none => none

/-- Borsh decode of a `Pubkey` (32 raw bytes). -/
def parsePubkey (l : List Nat) : Option (Pubkey × List Nat) := parseBytes 32 l

/-- Borsh decode of a `bool`: the tag byte must be `0` or `1`. -/
def parseBool (l : List Nat) : Option (Bool × List Nat) :=
  match l with
  | 0 :: rest => some (false, rest)
  | 1 :: rest => some (true, rest)
  | _ => none

/-- Borsh decode of an `Option<Pubkey>`: tag byte `0` or `1`. -/
def parseOptionPubkey (l : List Nat) : Option (Option Pubkey × List Nat) :=
  match l with
  | 0 :: rest => some (none, rest)
  | 1 :: rest =>
    match parsePubkey rest with
    | some (p, r) => some (some p, r)
    | none => none
  | _ => none

/-- Borsh decode of `n` consecutive pubkeys (the entrants vector body). -/
def parsePubkeyList : Nat → List Nat → Option (List Pubkey × List Nat)
  | 0, l => some ([], l)
  | n + 1, l =>
    match parsePubkey l with
    | some (p, rest) =>
      match parsePubkeyList n rest with
      | some (ps, rest2) => some (p :: ps, rest2)
      | none => none
    | none => none

/-- Borsh decode of the full `RaffleState`, field by field. -/
def parseRaffleState (l : List Nat) : Option (RaffleState × List Nat) :=
  match parsePubkey l with
  | none => none
  | some (authority, l1) =>
  match parseLE 8 l1 with
  | none => none
  | some (ticket_price, l2) =>
  match parseLE 8 l2 with
  | none => none
  | some (end_time, l3) =>
  match parseOptionPubkey l3 with
  | none => none
  | some (winner, l4) =>
  match parseLE 4 l4 with
  | none => none
  | some (max_tickets, l5) =>
  match parseBool l5 with
  | none => none
  | some (claimed, l6) =>
  match parseLE 4 l6 with
  | none => none
  | some (count, l7) =>
  match parsePubkeyList count l7 with
  | none => none
  | some (entrants, l8) =>
    some (⟨authority, ticket_price, end_time, winner, max_tickets, claimed,
      entrants⟩, l8)

/-- Embeds `RaffleState::try_from_slice`: borsh rejects trailing bytes, so the
input must be consumed exactly. -/
def try_from_slice (l : List Nat) : Option RaffleState :=
  match parseRaffleState l with
  | some (s, []) => some s
  | _ => none

/-- Embeds `RaffleState::serialize_to_account` from `state.rs`: borsh-serialize,
check the buffer holds `4 + len` bytes, then write a `u32` little-endian
length (the Rust `as u32` cast truncates) followed by the serialized
bytes, leaving the tail of the buffer untouched. -/
def RaffleState.serialize_to_account (s : RaffleState)
    (account_data : List Nat) : Except RaffleError (List Nat) :=
  let raffle_state_bytes := borshSer s
  let raffle_state_len := raffle_state_bytes.length
  if 4 + raffle_state_len ≤ account_data.length then
    Except.ok (encLE 4 raffle_state_len ++ raffle_state_bytes ++
      account_data.drop (4 + raffle_state_len))
  else
    Except.error RaffleError.RaffleStateDataInvalid

/-- Embeds `RaffleState::deserialize_from_account` from `state.rs`: read the
`u32` length from the first 4 bytes, check the buffer holds that many
bytes after the length, and borsh-deserialize that exact slice. -/
def RaffleState.deserialize_from_account (account_data : List Nat) :
    Except RaffleError RaffleState :=
  if 4 ≤ account_data.length then
    let length := decLE (account_data.take 4)
    if 4 + length ≤ account_data.length then
      match try_from_slice ((account_data.drop 4).take length) with
      | some s => Except.ok s
      | none => Except.error RaffleError.RaffleStateDataInvalid
    else
      Except.error RaffleError.RaffleStateDataInvalid
  else
    Except.error RaffleError.RaffleStateDataInvalid

/-- Serialize into a zeroed buffer of the computed maximum size, then
deserialize the result — the encode-then-decode pipeline of the spec. -/
def roundTrip (s : RaffleState) : Except RaffleError RaffleState :=
  match s.serialize_to_account (List.replicate s.max_size_in_bytes 0) with
  | Except.ok out => RaffleState.deserialize_from_account out
  | Except.error e => Except.error e

/-- Well-formedness of a `RaffleState` as a Rust value: scalar fields fit
their declared widths and all pubkeys are 32 bytes. -/
def RaffleState.WF (s : RaffleState) : Prop :=
  s.authority.length = 32 ∧ s.ticket_price < 2 ^ 64 ∧ s.end_time < 2 ^ 64 ∧
  s.max_tickets < 2 ^ 32 ∧ (∀ p, s.winner = some p → p.length = 32) ∧
  (∀ p ∈ s.entrants, p.length = 32)

/-- The raffle record as read and written by the instruction files
`create_raffle.rs`, `buy_tickets.rs` and `draw_winner_callback.rs`.
`create_raffle.rs` names the manager field `owner`; `buy_tickets.rs` and
`draw_winner_callback.rs` name it `raffle_manager`. -/
structure RaffleStateIx where
  raffle_manager : Pubkey
  /-- Price per ticket in lamports, `u64`. -/
  ticket_price : Nat
  /-- Unix timestamp, `i64`, compared against `clock.unix_timestamp`. -/
  end_time : Int
  /-- Index of the winning entrant, `Option<u32>`. -/
  winner_index : Option Nat
  /-- Set by the draw-request phase; checked by the callback. -/
  draw_winner_started : Bool
  /-- Capacity, `u32`. -/
  max_tickets : Nat
  claimed : Bool
  entrants : List Pubkey
  deriving DecidableEq, Repr

/-- The account state produced by Anchor's `init` before the handler body
runs: all bytes zero, hence every field at its zero value. -/
def initRaffleStateIx : RaffleStateIx :=
  { raffle_manager := List.replicate 32 0
    ticket_price := 0
    end_time := 0
    winner_index := none
    draw_winner_started := false
    max_tickets := 0
    claimed := false
    entrants := [] }

/-- Embeds `create_raffle_impl` from `create_raffle.rs`.  The handler runs after
Anchor's `init` has zero-initialized the account, so
`raffle_state.end_time` is `0` when the
`require!(now > raffle_state.end_time, RaffleEndTimeInPast)` check runs —
the check reads the stored field, not the `end_time` argument.  Then
`ticket_price.checked_mul(max_tickets)` is required to not overflow
(`RaffleTooLarge`), and the fields are assigned. -/
def create_raffle_impl (raffle_owner : Pubkey) (now : Int)
    (ticket_price max_tickets : Nat) (end_time : Int) :
    TxResult RaffleStateIx :=
  let raffle_state := initRaffleStateIx
  if ¬ (now > raffle_state.end_time) then
    TxResult.err RaffleError.RaffleEndTimeInPast
  else
    match checked_mul_u64 ticket_price max_tickets with
    | none => TxResult.err RaffleError.RaffleTooLarge
    | some _ =>
      TxResult.ok
        { raffle_state with
          raffle_manager := raffle_owner
          ticket_price := ticket_price
          end_time := end_time
          winner_index := none
          max_tickets := max_tickets
          claimed := false
          entrants := [] }

/-- The `BuyTickets` accounts constraints plus `buy_tickets_impl` from
`buy_tickets.rs`.  Anchor validates the two `constraint` clauses in
order before the handler body runs: first
`entrants.len() < max_tickets && clock.unix_timestamp < end_time`
(else `RaffleHasEnded`), then
`entrants.len() + number_of_tickets <= max_tickets`
(else `InsufficientTickets`).  The body computes
`ticket_price.checked_mul(number_of_tickets).unwrap()` — `unwrap` of
`None` is a panic, not a typed error — transfers the lamports (an
external effect), and appends `number_of_tickets` copies of the buyer to
`entrants`. -/
def buy_tickets (s : RaffleStateIx) (buyer : Pubkey)
    (number_of_tickets : Nat) (now : Int) : TxResult RaffleStateIx :=
  if ¬ (s.entrants.length < s.max_tickets ∧ now < s.end_time) then
    TxResult.err RaffleError.RaffleHasEnded
  else if ¬ (s.entrants.length + number_of_tickets ≤ s.max_tickets) then
    TxResult.err RaffleError.InsufficientTickets
  else
    match checked_mul_u64 s.ticket_price number_of_tickets with
    | none => TxResult.panic
    | some _total =>
      TxResult.ok
        { s with entrants := s.entrants ++ List.replicate number_of_tickets buyer }

/-- Modelled from the spec: the fixed, well-known oracle identity
(`ephemeral_vrf_sdk::consts::VRF_PROGRAM_IDENTITY`, a constant of an
external crate, not part of this repository).  Only equality with the
caller's key matters to the control flow, so the concrete bytes are a
distinguished placeholder. -/
def VRF_PROGRAM_IDENTITY : Pubkey := 9 :: List.replicate 31 0

/-- Modelled from the spec: `derive_uint(random_bytes)` — the full-width
unsigned integer derived from the 32 supplied random bytes
(`ephemeral_vrf_sdk::rnd::random_u64`, a function of an external crate,
not part of this repository), read here as the little-endian integer of
the byte string. -/
def derive_uint (random_bytes : List Nat) : Nat := decLE random_bytes

/-- The `DrawWinnerCallback` accounts constraints plus
`draw_winner_callback_impl` from `draw_winner_callback.rs`.  Anchor
validates the `constraint` clauses in order before the handler body:
`draw_winner_started` (else `DrawWinnerNotStarted`), then
`winner_index.is_none()` (else `CallbackAlreadyInvoked`).  The body then
checks the caller is the VRF program identity (else
`CallbackNotInvokedByVRF`), derives a random integer from the 32 random
bytes and sets `winner_index` to it modulo `entrants.len()` — a Rust `%`
by zero panics, so the empty-entrants case is a panic. -/
def draw_winner_callback (s : RaffleStateIx) (vrf_program_identity : Pubkey)
    (randomness : List Nat) : TxResult RaffleStateIx :=
  if ¬ s.draw_winner_started then
    TxResult.err RaffleError.DrawWinnerNotStarted
  else if s.winner_index.isSome then
    TxResult.err RaffleError.CallbackAlreadyInvoked
  else if ¬ (vrf_program_identity = VRF_PROGRAM_IDENTITY) then
    TxResult.err RaffleError.CallbackNotInvokedByVRF
  else if s.entrants.length = 0 then
    TxResult.panic
  else
    TxResult.ok
      { s with winner_index := some (derive_uint randomness % s.entrants.length) }

/-- A transaction that errors or panics aborts whole, leaving the stored
record as it was; only a successful transaction installs the new record. -/
def applyTx (s : RaffleStateIx) : TxResult RaffleStateIx → RaffleStateIx
  | TxResult.ok s' => s'
  | TxResult.err _ => s
  | TxResult.panic => s

/-- One record-mutating operation submitted against a raffle: a ticket
purchase or a winner-selection callback. -/
inductive Op where
  | buy (buyer : Pubkey) (n : Nat) (now : Int)
  | settle (caller : Pubkey) (randomness : List Nat)
  deriving Repr

/-- Execute one operation against the stored record. -/
def applyOp (s : RaffleStateIx) : Op → RaffleStateIx
  | Op.buy b n t => applyTx s (buy_tickets s b n t)
  | Op.settle c r => applyTx s (draw_winner_callback s c r)

/-- Execute a sequence of operations against the stored record. -/
def applyOps (s : RaffleStateIx) (ops : List Op) : RaffleStateIx :=
  ops.foldl applyOp s

/-! Concrete values used to exercise the definitions on real inputs. -/

/-- A sample 32-byte participant key. -/
def pkA : Pubkey := 1 :: List.replicate 31 0

/-- A second sample 32-byte participant key. -/
def pkB : Pubkey := 2 :: List.replicate 31 0

/-- A third sample 32-byte participant key. -/
def pkC : Pubkey := 3 :: List.replicate 31 0

/-- The record produced by a successful `create_raffle` with owner `pkA`,
price `100000`, capacity `10`, end time `2000`. -/
def createdState : RaffleStateIx :=
  { raffle_manager := pkA
    ticket_price := 100000
    end_time := 2000
    winner_index := none
    draw_winner_started := false
    max_tickets := 10
    claimed := false
    entrants := [] }

/-- A record awaiting its winner-selection callback: draw started, one
entrant, winner not yet set. -/
def settleState : RaffleStateIx :=
  { raffle_manager := pkA
    ticket_price := 100000
    end_time := 100
    winner_index := none
    draw_winner_started := true
    max_tickets := 10
    claimed := false
    entrants := [pkB] }

/-- A record awaiting its callback with three entrants. -/
def settleState3 : RaffleStateIx :=
  { raffle_manager := pkA
    ticket_price := 50
    end_time := 100
    winner_index := none
    draw_winner_started := true
    max_tickets := 5
    claimed := false
    entrants := [pkA, pkB, pkC] }

/-- A record whose `ticket_price * count` overflows `u64` for a capacity-
respecting purchase: price `2 ^ 63`, capacity `4`, no entrants. -/
def overflowState : RaffleStateIx :=
  { raffle_manager := pkA
    ticket_price := 2 ^ 63
    end_time := 100
    winner_index := none
    draw_winner_started := false
    max_tickets := 4
    claimed := false
    entrants := [] }

/-- A small concrete `state.rs` record for exercising the codec. -/
def smallState : RaffleState :=
  { authority := pkA
    ticket_price := 1
    end_time := 1
    winner := some pkB
    max_tickets := 2
    claimed := false
    entrants := [pkB, pkA] }

/-- A record at the `u32` boundary of the codec: `2 ^ 27` entrants make
the borsh payload `58 + 2 ^ 32` bytes long, so the `as u32` cast in
`serialize_to_account` truncates the written length prefix to `58`. -/
def bigState : RaffleState :=
  { authority := List.replicate 32 0
    ticket_price := 0
    end_time := 0
    winner := none
    max_tickets := 2 ^ 27
    claimed := false
    entrants := List.replicate (2 ^ 27) (List.replicate 32 0) }

/-- The 58 bytes of `borshSer bigState` that precede the entrant array. -/
def bigHeader : List Nat :=
  List.replicate 32 0 ++ encLE 8 0 ++ encLE 8 0 ++ [0] ++
    encLE 4 (2 ^ 27) ++ [0] ++ encLE 4 (2 ^ 27)

/-- State `settleState` after its successful winner-selection callback. -/
def settledState : RaffleStateIx := { settleState with winner_index := some 0 }

/-- A 32-byte randomness value whose little-endian integer is `5`. -/
def rnd5 : List Nat := 5 :: List.replicate 31 0

/-- State `settleState3` after a callback with randomness `rnd5`
(`5 mod 3 = 2`). -/
def settled3State : RaffleStateIx :=
  { settleState3 with winner_index := some 2 }

/-- A `state.rs` record with one sold ticket out of five. -/
def ledgerState : RaffleState :=
  { authority := pkA
    ticket_price := 50
    end_time := 99
    winner := none
    max_tickets := 5
    claimed := false
    entrants := [pkB] }

/-! Codec lemmas: each borsh parser inverts the corresponding encoder. -/

theorem parseBytes_append {l : List Nat} {k : Nat} (h : l.length = k)
    (r : List Nat) : parseBytes k (l ++ r) = some (l, r) := by
  unfold parseBytes
  rw [if_pos (by simp [h])]
  rw [List.take_left' h, List.drop_left' h]

theorem parseLE_encLE_lt {k n : Nat} (h : n < 256 ^ k) (r : List Nat) :
    parseLE k (encLE k n ++ r) = some (n, r) := by
  simp only [parseLE, parseBytes_append (encLE_length k n) r]
  rw [decLE_encLE_of_lt h]

theorem parsePubkey_append {p : Pubkey} (h : p.length = 32) (r : List Nat) :
    parsePubkey (p ++ r) = some (p, r) := parseBytes_append h r

theorem parseBool_encBool (b : Bool) (r : List Nat) :
    parseBool (encBool b ++ r) = some (b, r) := by
  cases b <;> rfl

theorem parseOptionPubkey_enc {w : Option Pubkey}
    (h : ∀ p, w = some p → p.length = 32) (r : List Nat) :
    parseOptionPubkey (encOptionPubkey w ++ r) = some (w, r) := by
  cases w with
  | none => rfl
  | some p =>
    have hp : p.length = 32 := h p rfl
    simp only [encOptionPubkey, List.cons_append, parseOptionPubkey]
    rw [parsePubkey_append hp r]

theorem parsePubkeyList_flatten {l : List Pubkey}
    (h : ∀ p ∈ l, p.length = 32) (r : List Nat) :
    parsePubkeyList l.length (l.flatten ++ r) = some (l, r) := by
  induction l with
  | nil => rfl
  | cons p ps ih =>
    have hp : p.length = 32 := h p (List.mem_cons_self p ps)
    have hps : ∀ q ∈ ps, q.length = 32 := fun q hq => h q (List.mem_cons_of_mem p hq)
    simp only [List.length_cons, List.flatten_cons, List.append_assoc,
      parsePubkeyList, parsePubkey_append hp, ih hps]

theorem flatten_length_32 {l : List Pubkey} (h : ∀ p ∈ l, p.length = 32) :
    l.flatten.length = 32 * l.length := by
  induction l with
  | nil => rfl
  | cons p ps ih =>
    have hp : p.length = 32 := h p (List.mem_cons_self p ps)
    have hps : ∀ q ∈ ps, q.length = 32 := fun q hq => h q (List.mem_cons_of_mem p hq)
    simp [List.flatten_cons, hp, ih hps, Nat.mul_succ, Nat.add_comm]

theorem borshSer_length_le (s : RaffleState) (hauth : s.authority.length = 32)
    (hwin : ∀ p, s.winner = some p → p.length = 32)
    (hent : ∀ p ∈ s.entrants, p.length = 32) :
    (borshSer s).length ≤ 90 + 32 * s.entrants.length := by
  unfold borshSer
  simp only [List.length_append, hauth, encLE_length, encBool,
    List.length_singleton, flatten_length_32 hent]
  cases hw : s.winner with
  | none => simp [encOptionPubkey]
  | some p =>
    have hp : p.length = 32 := hwin p hw
    simp [encOptionPubkey, hp]

theorem parseRaffleState_borshSer (s : RaffleState) (r : List Nat)
    (hauth : s.authority.length = 32) (hp : s.ticket_price < 2 ^ 64)
    (he : s.end_time < 2 ^ 64) (hm : s.max_tickets < 2 ^ 32)
    (hw : ∀ p, s.winner = some p → p.length = 32)
    (hent : ∀ p ∈ s.entrants, p.length = 32)
    (hcnt : s.entrants.length < 2 ^ 32) :
    parseRaffleState (borshSer s ++ r) = some (s, r) := by
  have h64 : (256 : Nat) ^ 8 = 2 ^ 64 := by norm_num
  have h32 : (256 : Nat) ^ 4 = 2 ^ 32 := by norm_num
  have hp' : s.ticket_price < 256 ^ 8 := by rw [h64]; exact hp
  have he' : s.end_time < 256 ^ 8 := by rw [h64]; exact he
  have hm' : s.max_tickets < 256 ^ 4 := by rw [h32]; exact hm
  have hcnt' : s.entrants.length < 256 ^ 4 := by rw [h32]; exact hcnt
  simp only [borshSer, List.append_assoc, parseRaffleState,
    parsePubkey_append hauth, parseLE_encLE_lt hp', parseLE_encLE_lt he',
    parseOptionPubkey_enc hw, parseLE_encLE_lt hm', parseBool_encBool,
    parseLE_encLE_lt hcnt', parsePubkeyList_flatten hent]

theorem serialize_to_account_eq (s : RaffleState) (buf : List Nat)
    (h : 4 + (borshSer s).length ≤ buf.length) :
    s.serialize_to_account buf =
      Except.ok (encLE 4 (borshSer s).length ++ borshSer s ++
        buf.drop (4 + (borshSer s).length)) := by
  unfold RaffleState.serialize_to_account
  rw [if_pos h]

theorem try_from_slice_borshSer (s : RaffleState)
    (hauth : s.authority.length = 32) (hp : s.ticket_price < 2 ^ 64)
    (he : s.end_time < 2 ^ 64) (hm : s.max_tickets < 2 ^ 32)
    (hw : ∀ p, s.winner = some p → p.length = 32)
    (hent : ∀ p ∈ s.entrants, p.length = 32)
    (hcnt : s.entrants.length < 2 ^ 32) :
    try_from_slice (borshSer s) = some s := by
  unfold try_from_slice
  have h := parseRaffleState_borshSer s [] hauth hp he hm hw hent hcnt
  rw [List.append_nil] at h
  rw [h]

theorem encLE_add_mul (k n t : Nat) : encLE k (n + 256 ^ k * t) = encLE k n := by
  induction k generalizing n t with
  | zero => rfl
  | succ k ih =>
    have h1 : (n + 256 ^ (k + 1) * t) % 256 = n % 256 := by
      rw [pow_succ', mul_assoc]
      exact Nat.add_mul_mod_self_left n 256 (256 ^ k * t)
    have h2 : (n + 256 ^ (k + 1) * t) / 256 = n / 256 + 256 ^ k * t := by
      rw [pow_succ', mul_assoc]
      exact Nat.add_mul_div_left n (256 ^ k * t) (by norm_num)
    simp only [encLE, h1, h2, ih]

/-- What `deserialize_from_account` does on a buffer whose first four
bytes encode `m` and whose remainder holds at least `m` bytes. -/
theorem deserialize_from_account_eq (m : Nat) (rest : List Nat)
    (hm : m < 2 ^ 32) (hrest : m ≤ rest.length) :
    RaffleState.deserialize_from_account (encLE 4 m ++ rest) =
      (match try_from_slice (rest.take m) with
       | some s => Except.ok s
       | none => Except.error RaffleError.RaffleStateDataInvalid) := by
  unfold RaffleState.deserialize_from_account
  have h4 : (4 : Nat) ≤ (encLE 4 m ++ rest).length := by
    simp [encLE_length]
  rw [if_pos h4]
  have htake : (encLE 4 m ++ rest).take 4 = encLE 4 m :=
    List.take_left' (encLE_length 4 m)
  have hdrop : (encLE 4 m ++ rest).drop 4 = rest :=
    List.drop_left' (encLE_length 4 m)
  have h256 : m < 256 ^ 4 := by
    have : (256 : Nat) ^ 4 = 2 ^ 32 := by norm_num
    rw [this]; exact hm
  simp only [htake, hdrop, decLE_encLE_of_lt h256]
  rw [if_pos (by simp [encLE_length]; omega)]

/-- When serialization succeeds, the round trip is deserialization of
its output. -/
theorem roundTrip_eq (s : RaffleState) (out : List Nat)
    (h : s.serialize_to_account (List.replicate s.max_size_in_bytes 0) =
      Except.ok out) :
    roundTrip s = RaffleState.deserialize_from_account out := by
  unfold roundTrip
  rw [h]

/-- C6 (amended): for every well-formed record with
`entrants.length ≤ max_tickets` whose borsh payload is shorter than
`2 ^ 32` bytes, serializing into a zeroed buffer of
`max_size_in_bytes` and deserializing the result returns the record with
every field intact. -/
theorem raffle_record_roundtrip (s : RaffleState) (hWF : s.WF)
    (hlen : s.entrants.length ≤ s.max_tickets)
    (hfit : (borshSer s).length < 2 ^ 32) :
    roundTrip s = Except.ok s := by
  obtain ⟨hauth, hp, he, hm, hw, hent⟩ := hWF
  have hcnt : s.entrants.length < 2 ^ 32 := lt_of_le_of_lt hlen hm
  have hble := borshSer_length_le s hauth hw hent
  have hbuf : 4 + (borshSer s).length ≤
      (List.replicate s.max_size_in_bytes 0).length := by
    simp only [List.length_replicate, RaffleState.max_size_in_bytes]
    omega
  have hser := serialize_to_account_eq s _ hbuf
  have hrest : (borshSer s).length ≤
      (borshSer s ++ (List.replicate s.max_size_in_bytes 0).drop
        (4 + (borshSer s).length)).length := by
    simp [List.length_append]
  simp only [roundTrip, hser, List.append_assoc,
    deserialize_from_account_eq _ _ hfit hrest,
    List.take_left' (rfl : (borshSer s).length = (borshSer s).length),
    try_from_slice_borshSer s hauth hp he hm hw hent hcnt]

set_option maxRecDepth 8192 in
/-- Witness for C6: a concrete two-entrant record round-trips. -/
theorem raffle_record_roundtrip_witness :
    roundTrip smallState = Except.ok smallState :=
  raffle_record_roundtrip smallState
    ⟨by decide, by decide, by decide, by decide,
     fun p hp => by injection hp with h; rw [← h]; decide,
     by decide⟩
    (by decide) (by decide)

set_option maxRecDepth 8192 in
/-- Counterexample for C6 as stated: `bigState` has
`entrants.length = max_tickets = 2 ^ 27`, but its borsh payload is
`58 + 2 ^ 32` bytes, the `as u32` cast truncates the written length
prefix to `58`, and decoding the truncated slice fails — the record does
not round-trip. -/
theorem raffle_record_roundtrip_counterexample :
    bigState.entrants.length ≤ bigState.max_tickets ∧
      roundTrip bigState ≠ Except.ok bigState := by
  have hreplen : ∀ p ∈ bigState.entrants, p.length = 32 := by
    intro p hp
    simp only [bigState] at hp
    rw [List.eq_of_mem_replicate hp]
    exact List.length_replicate 32 0
  have hcexlen : bigState.entrants.length = 2 ^ 27 :=
    List.length_replicate (2 ^ 27) (List.replicate 32 0)
  have hfl : bigState.entrants.flatten.length = 2 ^ 32 := by
    rw [flatten_length_32 hreplen, hcexlen]
    norm_num
  have hsplit : borshSer bigState = bigHeader ++ bigState.entrants.flatten := by
    simp only [borshSer]
    rw [hcexlen]
    rfl
  have hheaderlen : bigHeader.length = 58 := by decide
  have hserlen : (borshSer bigState).length = 58 + 2 ^ 32 := by
    rw [hsplit, List.length_append, hheaderlen, hfl]
  have hmax : bigState.max_size_in_bytes = 94 + 2 ^ 32 := by
    simp only [RaffleState.max_size_in_bytes]
    have hmt : bigState.max_tickets = 2 ^ 27 := rfl
    rw [hmt]
    norm_num
  have hbuf : 4 + (borshSer bigState).length ≤
      (List.replicate bigState.max_size_in_bytes 0).length := by
    rw [hserlen, List.length_replicate, hmax]
    norm_num
  have hser := serialize_to_account_eq bigState _ hbuf
  have henc : encLE 4 (borshSer bigState).length = encLE 4 58 := by
    rw [hserlen]
    have h1 : (58 : Nat) + 2 ^ 32 = 58 + 256 ^ 4 * 1 := by norm_num
    rw [h1, encLE_add_mul]
  have hrest : 58 ≤ (borshSer bigState ++
      (List.replicate bigState.max_size_in_bytes 0).drop
        (4 + (borshSer bigState).length)).length := by
    rw [List.length_append, hserlen]
    omega
  have htk : (borshSer bigState ++
      (List.replicate bigState.max_size_in_bytes 0).drop
        (4 + (borshSer bigState).length)).take 58 = bigHeader := by
    rw [hsplit, List.append_assoc]
    exact List.take_left' hheaderlen
  have hparse : try_from_slice bigHeader = none := by decide
  have hrt : roundTrip bigState =
      Except.error RaffleError.RaffleStateDataInvalid := by
    rw [roundTrip_eq bigState _ hser, henc, List.append_assoc,
      deserialize_from_account_eq 58 _ (by norm_num) hrest, htk, hparse]
  refine ⟨?_, ?_⟩
  · rw [hcexlen]
    exact Nat.le_refl (2 ^ 27)
  · rw [hrt]
    intro hcontra
    exact Except.noConfusion hcontra

/-! Instruction-handler lemmas. -/

/-- A successful buy passed the capacity constraint and appended exactly
`n` copies of the buyer. -/
theorem buy_tickets_ok_len {s : RaffleStateIx} {b : Pubkey} {n : Nat}
    {t : Int} {s' : RaffleStateIx} (h : buy_tickets s b n t = TxResult.ok s') :
    s.entrants.length + n ≤ s.max_tickets ∧
      s' = { s with entrants := s.entrants ++ List.replicate n b } := by
  unfold buy_tickets at h
  split_ifs at h with h1 h2
  cases hm : checked_mul_u64 s.ticket_price n with
  | none => rw [hm] at h; exact absurd h (by simp)
  | some tot =>
    rw [hm] at h
    injection h with h5
    exact ⟨h2, h5.symm⟩

/-- A successful callback only sets `winner_index`. -/
theorem draw_winner_callback_ok_shape {s : RaffleStateIx} {caller : Pubkey}
    {rnd : List Nat} {s' : RaffleStateIx}
    (h : draw_winner_callback s caller rnd = TxResult.ok s') :
    s' = { s with
      winner_index := some (derive_uint rnd % s.entrants.length) } := by
  unfold draw_winner_callback at h
  split_ifs at h with h1 h2 h3 h4
  injection h with h5
  exact h5.symm

/-- Every single operation preserves `entrants.length ≤ max_tickets`. -/
theorem applyOp_preserves_inv (s : RaffleStateIx) (op : Op)
    (h : s.entrants.length ≤ s.max_tickets) :
    (applyOp s op).entrants.length ≤ (applyOp s op).max_tickets := by
  cases op with
  | buy b n t =>
    simp only [applyOp]
    cases hb : buy_tickets s b n t with
    | ok s' =>
      obtain ⟨hle, rfl⟩ := buy_tickets_ok_len hb
      simp only [applyTx, List.length_append, List.length_replicate]
      exact hle
    | err e => simp only [applyTx]; exact h
    | panic => simp only [applyTx]; exact h
  | settle c r =>
    simp only [applyOp]
    cases hb : draw_winner_callback s c r with
    | ok s' =>
      obtain rfl := draw_winner_callback_ok_shape hb
      simp only [applyTx]
      exact h
    | err e => simp only [applyTx]; exact h
    | panic => simp only [applyTx]; exact h

/-- Every operation sequence preserves the capacity invariant. -/
theorem applyOps_preserves_inv (ops : List Op) :
    ∀ s : RaffleStateIx, s.entrants.length ≤ s.max_tickets →
      (applyOps s ops).entrants.length ≤ (applyOps s ops).max_tickets := by
  induction ops with
  | nil => intro s h; exact h
  | cons op ops ih =>
    intro s h
    simp only [applyOps, List.foldl_cons]
    exact ih (applyOp s op) (applyOp_preserves_inv s op h)

/-! Claim theorems about the instruction handlers. -/

/-- C1: a settle-draw callback succeeds only on a record whose
`winner_index` is unset, and sets it; every subsequent callback on the
updated record fails with the already-drawn error
(`CallbackAlreadyInvoked`, documented as `WinnerAlreadyDrawn` in
`lib.rs`) and leaves the record unchanged. -/
theorem settle_draw_at_most_once (s : RaffleStateIx) (caller : Pubkey)
    (rnd : List Nat) (s' : RaffleStateIx)
    (h : draw_winner_callback s caller rnd = TxResult.ok s') :
    s.winner_index = none ∧ s'.winner_index.isSome = true ∧
      ∀ caller' rnd',
        draw_winner_callback s' caller' rnd' =
          TxResult.err RaffleError.CallbackAlreadyInvoked ∧
        applyTx s' (draw_winner_callback s' caller' rnd') = s' := by
  unfold draw_winner_callback at h
  split_ifs at h with h1 h2 h3 h4
  injection h with h5
  subst h5
  refine ⟨Option.not_isSome_iff_eq_none.mp h2, rfl, ?_⟩
  intro caller' rnd'
  have hsecond : draw_winner_callback
      { s with winner_index := some (derive_uint rnd % s.entrants.length) }
      caller' rnd' = TxResult.err RaffleError.CallbackAlreadyInvoked := by
    simp [draw_winner_callback, h1]
  exact ⟨hsecond, by rw [hsecond]; rfl⟩

/-- Witness for C1: a concrete callback succeeds once, and the very next
callback on the updated record fails with `CallbackAlreadyInvoked`. -/
theorem settle_draw_at_most_once_witness :
    draw_winner_callback settledState pkB [1] =
        TxResult.err RaffleError.CallbackAlreadyInvoked ∧
      applyTx settledState (draw_winner_callback settledState pkB [1]) =
        settledState :=
  (settle_draw_at_most_once settleState VRF_PROGRAM_IDENTITY
    (List.replicate 32 0) settledState (by decide)).2.2 pkB [1]

/-- C2: a successful settle-draw with 32-byte randomness sets
`winner_index` to `derive_uint(random_bytes) mod entrants.length`, which
indexes a valid position in `entrants`. -/
theorem settle_draw_winner_index_valid (s : RaffleStateIx) (caller : Pubkey)
    (rnd : List Nat) (s' : RaffleStateIx) (h32 : rnd.length = 32)
    (h : draw_winner_callback s caller rnd = TxResult.ok s') :
    s'.winner_index = some (derive_uint rnd % s.entrants.length) ∧
      derive_uint rnd % s.entrants.length < s.entrants.length := by
  unfold draw_winner_callback at h
  split_ifs at h with h1 h2 h3 h4
  injection h with h5
  subst h5
  exact ⟨rfl, Nat.mod_lt _ (Nat.pos_of_ne_zero h4)⟩

/-- Witness for C2: three entrants, randomness with value `5`, winner
index `5 mod 3 = 2`. -/
theorem settle_draw_winner_index_valid_witness :
    settled3State.winner_index =
        some (derive_uint rnd5 % settleState3.entrants.length) ∧
      derive_uint rnd5 % settleState3.entrants.length <
        settleState3.entrants.length :=
  settle_draw_winner_index_valid settleState3 VRF_PROGRAM_IDENTITY rnd5
    settled3State (by decide) (by decide)

/-- C3: from any successfully created raffle, every sequence of buy and
settle operations keeps `entrants.length ≤ max_tickets`; moreover a buy
succeeds only when `entrants.length + count ≤ max_tickets` and then
appends exactly `count` entrants. -/
theorem entrants_le_capacity (owner : Pubkey) (now : Int)
    (price cap : Nat) (endTime : Int) (s₀ : RaffleStateIx)
    (h : create_raffle_impl owner now price cap endTime = TxResult.ok s₀)
    (ops : List Op) :
    (applyOps s₀ ops).entrants.length ≤ (applyOps s₀ ops).max_tickets ∧
      ∀ s b n t s', buy_tickets s b n t = TxResult.ok s' →
        s.entrants.length + n ≤ s.max_tickets ∧
        s'.entrants.length = s.entrants.length + n := by
  have hs0 : s₀.entrants = [] := by
    simp only [create_raffle_impl] at h
    split_ifs at h with h1
    cases hm : checked_mul_u64 price cap with
    | none => rw [hm] at h; exact absurd h (by simp)
    | some tot =>
      rw [hm] at h
      injection h with h5
      rw [← h5]
  constructor
  · exact applyOps_preserves_inv ops s₀ (by rw [hs0]; exact Nat.zero_le _)
  · intro s b n t s' hb
    obtain ⟨hle, rfl⟩ := buy_tickets_ok_len hb
    exact ⟨hle, by simp [List.length_append, List.length_replicate]⟩

/-- Witness for C3: the invariant after creating a ten-ticket raffle and
buying three tickets. -/
theorem entrants_le_capacity_witness :
    (applyOps createdState [Op.buy pkB 3 1500]).entrants.length ≤
      (applyOps createdState [Op.buy pkB 3 1500]).max_tickets :=
  (entrants_le_capacity pkA 1000 100000 10 2000 createdState (by decide)
    [Op.buy pkB 3 1500]).1

/-- C4 (code evaluation at the failing input): with `now = 1000` and the
past argument `end_time = 500`, `create_raffle` succeeds instead of
failing with `RaffleEndTimeInPast` — the `require!` compares `now`
against the zero-initialized stored `end_time` field, never against the
argument. -/
theorem create_raffle_accepts_past_end_time :
    create_raffle_impl pkA 1000 100000 10 500 =
      TxResult.ok
        { raffle_manager := pkA
          ticket_price := 100000
          end_time := 500
          winner_index := none
          draw_winner_started := false
          max_tickets := 10
          claimed := false
          entrants := [] } := by decide

/-- C5: a buy is rejected with the raffle-ended error (`RaffleHasEnded`)
exactly when `entrants.length ≥ max_tickets` or `now ≥ end_time`, and is
never rejected on that ground otherwise. -/
theorem buy_rejected_raffle_ended_iff (s : RaffleStateIx) (b : Pubkey)
    (n : Nat) (now : Int) :
    buy_tickets s b n now = TxResult.err RaffleError.RaffleHasEnded ↔
      (s.max_tickets ≤ s.entrants.length ∨ s.end_time ≤ now) := by
  unfold buy_tickets
  by_cases h1 : s.entrants.length < s.max_tickets ∧ now < s.end_time
  · rw [if_neg (not_not.mpr h1)]
    constructor
    · intro hcontra
      by_cases h2 : s.entrants.length + n ≤ s.max_tickets
      · rw [if_neg (not_not.mpr h2)] at hcontra
        cases hm : checked_mul_u64 s.ticket_price n with
        | none => rw [hm] at hcontra; exact absurd hcontra (by simp)
        | some tot => rw [hm] at hcontra; exact absurd hcontra (by simp)
      · rw [if_pos h2] at hcontra
        exact absurd hcontra (by simp)
    · intro hc
      obtain ⟨hA, hB⟩ := h1
      rcases hc with hc | hc
      · omega
      · exact absurd hB (by omega)
  · rw [if_pos h1]
    constructor
    · intro _
      by_contra hc
      push_neg at hc
      exact h1 ⟨by omega, by omega⟩
    · intro _
      rfl

/-- Witness for C5: buying on a fresh ten-ticket raffle after its end
time is rejected exactly per the over-predicate. -/
theorem buy_rejected_raffle_ended_iff_witness :
    buy_tickets createdState pkB 1 2500 =
        TxResult.err RaffleError.RaffleHasEnded ↔
      (createdState.max_tickets ≤ createdState.entrants.length ∨
        createdState.end_time ≤ 2500) :=
  buy_rejected_raffle_ended_iff createdState pkB 1 2500

/-- C7: `reserve_tickets` returns `true` exactly when the checked
addition `entrants.length + num_tickets` neither overflows `usize` nor
exceeds `max_tickets`; on success it appends exactly `num_tickets`
copies of the holder, on failure it leaves the record unchanged. -/
theorem reserve_tickets_spec (s : RaffleState) (holder : Pubkey)
    (num_tickets : Nat) :
    ((s.reserve_tickets holder num_tickets).1 = true ↔
      s.entrants.length + num_tickets < 2 ^ 64 ∧
        s.entrants.length + num_tickets ≤ s.max_tickets) ∧
    ((s.reserve_tickets holder num_tickets).1 = true →
      (s.reserve_tickets holder num_tickets).2 =
        { s with entrants :=
            s.entrants ++ List.replicate num_tickets holder }) ∧
    ((s.reserve_tickets holder num_tickets).1 = false →
      (s.reserve_tickets holder num_tickets).2 = s) := by
  have heq : s.reserve_tickets holder num_tickets =
      if s.entrants.length + num_tickets < 2 ^ 64 ∧
          s.entrants.length + num_tickets ≤ s.max_tickets
      then (true,
        { s with entrants := s.entrants ++ List.replicate num_tickets holder })
      else (false, s) := by
    unfold RaffleState.reserve_tickets checked_add_usize
      RaffleState.sold_tickets
    by_cases h1 : s.entrants.length + num_tickets < 2 ^ 64
    · simp only [if_pos h1]
      by_cases h2 : s.entrants.length + num_tickets ≤ s.max_tickets
      · rw [if_pos h2, if_pos ⟨h1, h2⟩]
      · rw [if_neg h2, if_neg (fun hcon => h2 hcon.2)]
    · simp only [if_neg h1]
      rw [if_neg (fun hcon => h1 hcon.1)]
  by_cases hc : s.entrants.length + num_tickets < 2 ^ 64 ∧
      s.entrants.length + num_tickets ≤ s.max_tickets
  · rw [if_pos hc] at heq
    rw [heq]
    exact ⟨Iff.intro (fun _ => hc) (fun _ => rfl), fun _ => rfl,
      fun hcf => Bool.noConfusion hcf⟩
  · rw [if_neg hc] at heq
    rw [heq]
    exact ⟨Iff.intro (fun hcf => Bool.noConfusion hcf)
        (fun hcon => absurd hcon hc),
      fun hcf => Bool.noConfusion hcf, fun _ => rfl⟩

/-- Witness for C7: reserving two tickets on a one-of-five record. -/
theorem reserve_tickets_spec_witness :
    ((ledgerState.reserve_tickets pkC 2).1 = true ↔
      ledgerState.entrants.length + 2 < 2 ^ 64 ∧
        ledgerState.entrants.length + 2 ≤ ledgerState.max_tickets) ∧
    ((ledgerState.reserve_tickets pkC 2).1 = true →
      (ledgerState.reserve_tickets pkC 2).2 =
        { ledgerState with entrants :=
            ledgerState.entrants ++ List.replicate 2 pkC }) ∧
    ((ledgerState.reserve_tickets pkC 2).1 = false →
      (ledgerState.reserve_tickets pkC 2).2 = ledgerState) :=
  reserve_tickets_spec ledgerState pkC 2

/-- C8: when the creation-time check `ticket_price * max_tickets` fits
in `u64` and `entrants.length ≤ max_tickets`, the unchecked
multiplication in `prize_amount` stays below `2 ^ 64`. -/
theorem prize_amount_no_overflow (s : RaffleState)
    (hcap : (checked_mul_u64 s.ticket_price s.max_tickets).isSome = true)
    (hlen : s.entrants.length ≤ s.max_tickets) :
    s.prize_amount < 2 ^ 64 := by
  unfold checked_mul_u64 at hcap
  split_ifs at hcap with h
  · calc s.prize_amount = s.ticket_price * s.entrants.length := rfl
      _ ≤ s.ticket_price * s.max_tickets := Nat.mul_le_mul_left _ hlen
      _ < 2 ^ 64 := h
  · exact absurd hcap (by simp)

/-- Witness for C8: the one-of-five record's prize fits in `u64`. -/
theorem prize_amount_no_overflow_witness : ledgerState.prize_amount < 2 ^ 64 :=
  prize_amount_no_overflow ledgerState (by decide) (by decide)

/-- Counterexample for C9 as stated: at a record with
`ticket_price = 2 ^ 63`, buying 4 tickets passes every constraint and
then panics on `unwrap` — it does not fail with a typed overflow error
(no `PriceOverflow` variant exists; `RaffleTooLarge` is the creation-time
overflow error and is not produced either). -/
theorem buy_overflow_panics_counterexample :
    buy_tickets overflowState pkB 4 0 = TxResult.panic ∧
      buy_tickets overflowState pkB 4 0 ≠
        TxResult.err RaffleError.RaffleTooLarge := by decide

/-- C9 (amended): a buy whose `ticket_price * count` overflows `u64`
while passing the ended and capacity constraints aborts with the Rust
`unwrap` panic — before any balance transfer or entrant mutation — and
produces no typed error. -/
theorem buy_overflow_panics (s : RaffleStateIx) (b : Pubkey) (n : Nat)
    (now : Int) (h1 : s.entrants.length < s.max_tickets)
    (h2 : now < s.end_time) (h3 : s.entrants.length + n ≤ s.max_tickets)
    (h4 : 2 ^ 64 ≤ s.ticket_price * n) :
    buy_tickets s b n now = TxResult.panic := by
  unfold buy_tickets
  rw [if_neg (not_not.mpr ⟨h1, h2⟩), if_neg (not_not.mpr h3)]
  unfold checked_mul_u64
  rw [if_neg (by omega)]

/-- Witness for C9's amended theorem at the concrete overflow record. -/
theorem buy_overflow_panics_witness :
    buy_tickets overflowState pkB 4 0 = TxResult.panic :=
  buy_overflow_panics overflowState pkB 4 0 (by decide) (by decide)
    (by decide) (by decide)

/-- C10 (code evaluation at the failing input): `create_raffle` with
`max_tickets = 0` succeeds — no zero-capacity check exists, although the
`lib.rs` documentation promises a `MaxTicketsIsZero` error. -/
theorem create_raffle_accepts_zero_capacity :
    create_raffle_impl pkA 1000 100000 0 2000 =
      TxResult.ok
        { raffle_manager := pkA
          ticket_price := 100000
          end_time := 2000
          winner_index := none
          draw_winner_started := false
          max_tickets := 0
          claimed := false
          entrants := [] } := by decide

end Raffle
